import Mathlib

/-!
Verification development for the todu repository: a shallow embedding of the
task data model, the GET and POST handlers of /api/tasks, the timeline day
filters, the checklist progress computation, the all-tasks search filter and
the per-user color hashing, together with theorems settling the frozen claims.
-/

namespace Todu

/-- Task status pipeline values, from models/Task and the dialog schema. -/
inductive Status where
  | backlog
  | in_progress
  | done
deriving DecidableEq

/-- Task priority values, from the dialog schema (z.enum of low, med, high). -/
inductive Priority where
  | low
  | med
  | high
deriving DecidableEq

/-- A checklist item: a labeled boolean sub-task. -/
structure ChecklistItem where
  label : String
  checked : Bool
deriving DecidableEq

/-- A task document as stored in the tasks collection.  Timestamps are
milliseconds since the epoch; the document id is a natural number. -/
structure Task where
  id : Nat
  userId : String
  title : String
  description : Option String
  status : Status
  priority : Priority
  order : Int
  tags : List String
  startAt : Option Int
  dueAt : Option Int
  items : List ChecklistItem
  percent : Int
deriving DecidableEq

/-- The database state: the tasks collection as a list of documents. -/
abbrev Db := List Task

/-- Rank of the status string under BSON string comparison, used by the
sort({status: 1, order: 1}) in the GET handler: the stored strings satisfy
backlog < done < in_progress lexicographically. -/
def statusMongoRank : Status → Nat
  | .backlog => 0
  | .done => 1
  | .in_progress => 2

/-- Comparison used to sort the GET result, mirroring sort({status: 1, order: 1}). -/
def taskLEB (a b : Task) : Bool :=
  decide (statusMongoRank a.status < statusMongoRank b.status) ||
    (decide (statusMongoRank a.status = statusMongoRank b.status) &&
      decide (a.order ≤ b.order))

instance instDecRelTaskLEB : DecidableRel (fun a b : Task => taskLEB a b = true) :=
  fun a b => instDecidableEqBool (taskLEB a b) true

/-- Sorting of the GET result by (status, order). -/
def sortTasks (ts : List Task) : List Task :=
  List.insertionSort (fun a b => taskLEB a b = true) ts

/-- ASCII lowercasing of one character, modelling toLowerCase and the
case-insensitive regex option on ASCII input. -/
def lowerChar (c : Char) : Char :=
  if 65 ≤ c.toNat ∧ c.toNat ≤ 90 then Char.ofNat (c.toNat + 32) else c

/-- Lowercased copy of a string. -/
def lowerStr (s : String) : String := String.mk (s.data.map lowerChar)

/-- Whether the text starts with a match of the pattern, character by
character, under a given character matcher. -/
def matchAt (eq : Char → Char → Bool) : List Char → List Char → Bool
  | [], _ => true
  | _ :: _, [] => false
  | p :: ps, c :: cs => eq p c && matchAt eq ps cs

/-- Whether some position of the text starts a match of the pattern
(unanchored search, as MongoDB regex search and String.includes do). -/
def searchSub (eq : Char → Char → Bool) (pat : List Char) : List Char → Bool
  | [] => matchAt eq pat []
  | c :: cs => matchAt eq pat (c :: cs) || searchSub eq pat cs

/-- JavaScript String.includes: literal substring containment. -/
def strIncludes (hay needle : String) : Bool :=
  searchSub (fun a b => a == b) needle.data hay.data

/-- One-character matching for a MongoDB $regex pattern with the i option,
on the pattern fragment of literal characters and the dot metacharacter:
a dot matches any character except a newline, any other pattern character
matches itself case-insensitively. -/
def regexCharCI (p c : Char) : Bool :=
  if p == '.' then !(c == '\n') else lowerChar p == lowerChar c

/-- MongoDB field match { $regex: pat, $options: i }: unanchored
case-insensitive regex search of the pattern in the text. -/
def regexSearchCI (pat text : String) : Bool :=
  searchSub regexCharCI pat.data text.data

/-- Characters that are metacharacters in the regex dialect MongoDB uses;
a query avoiding all of them is interpreted literally. -/
def regexSpecialChars : List Char :=
  ['\\', '^', '$', '.', '|', '?', '*', '+', '(', ')', '[', ']',
    Char.ofNat 123, Char.ofNat 125]

/-- The client-side search filter of the all-tasks view: the query matches a
task when the lowercased title contains the lowercased query, or the task has
a truthy description whose lowercased text contains the lowercased query. -/
def clientTaskMatches (qs : String) (t : Task) : Bool :=
  strIncludes (lowerStr t.title) (lowerStr qs) ||
    (match t.description with
     | none => false
     | some d => !(d == "") && strIncludes (lowerStr d) (lowerStr qs))

/-- Stated from the claim: the query occurs case-insensitively as a literal
substring of the title or of the description. -/
def claimSubstrMatch (qs : String) (t : Task) : Bool :=
  strIncludes (lowerStr t.title) (lowerStr qs) ||
    (match t.description with
     | none => false
     | some d => strIncludes (lowerStr d) (lowerStr qs))

/-- The user object inside a session, with an optional id. -/
structure SessionUser where
  id : Option String
deriving DecidableEq

/-- A session as returned by getServerSession, with an optional user. -/
structure Session where
  user : Option SessionUser
deriving DecidableEq

/-- The check session.user.id performed by both handlers; a missing session,
a missing user, a missing id, or an empty (falsy) id all fail it. -/
def getSessionUserId : Option Session → Option String
  | none => none
  | some sess =>
    match sess.user with
    | none => none
    | some u =>
      match u.id with
      | none => none
      | some i => if i = "" then none else some i

/-- One structured validation issue, with the offending field path and a
message, as in the details array of a zod error response. -/
structure ZodIssue where
  path : String
  message : String
deriving DecidableEq

/-- Raw query parameters of GET /api/tasks before validation; each field is
the first value of that search parameter, with empty strings already turned
into undefined by the or-undefined defaulting in the handler. -/
structure RawQuery where
  status : Option String
  q : Option String
  from_ : Option String
  to_ : Option String
deriving DecidableEq

/-- The validated query of GET /api/tasks. -/
structure GetQuery where
  status : Option Status
  q : Option String
  from_ : Option Int
  to_ : Option Int
deriving DecidableEq

/-- Parsing of a status string into the status enum. -/
def parseStatus : String → Option Status
  | "backlog" => some .backlog
  | "in_progress" => some .in_progress
  | "done" => some .done
  | _ => none

/-- Parsing of a priority string into the priority enum. -/
def parsePriority : String → Option Priority
  | "low" => some .low
  | "med" => some .med
  | "high" => some .high
  | _ => none

/-- The or-undefined defaulting applied to each search parameter in the GET
handler: a missing or empty value becomes undefined. -/
def orUndef : Option String → Option String
  | none => none
  | some s => if s = "" then none else some s

/-- Extraction of the four recognized search parameters from the request
URL, as the GET handler does; every other parameter, such as scope, is
ignored. -/
def buildRawQuery (params : List (String × String)) : RawQuery :=
  { status := orUndef (params.lookup "status")
    q := orUndef (params.lookup "q")
    from_ := orUndef (params.lookup "from")
    to_ := orUndef (params.lookup "to") }

/-- Modelled from the spec: getTasksQuerySchema from lib/validations.ts,
which is not among the provided sources.  Per the spec the list endpoint
takes an optional status (one of the three pipeline values), a free-text q,
and a from/to date range (dates modelled as decimal integer timestamps);
a malformed value yields a structured per-field issue. -/
def parseGetQuery (r : RawQuery) : Except (List ZodIssue) GetQuery :=
  let statusIss : List ZodIssue :=
    match r.status with
    | none => []
    | some s => match parseStatus s with
      | some _ => []
      | none => [⟨"status", "Invalid enum value"⟩]
  let fromIss : List ZodIssue :=
    match r.from_ with
    | none => []
    | some s => match s.toInt? with
      | some _ => []
      | none => [⟨"from", "Invalid date"⟩]
  let toIss : List ZodIssue :=
    match r.to_ with
    | none => []
    | some s => match s.toInt? with
      | some _ => []
      | none => [⟨"to", "Invalid date"⟩]
  let issues := statusIss ++ fromIss ++ toIss
  if issues.isEmpty then
    .ok { status := r.status.bind parseStatus
          q := r.q
          from_ := r.from_.bind String.toInt?
          to_ := r.to_.bind String.toInt? }
  else .error issues

/-- The $or clause the GET handler builds for a search query: the query is
passed as an unescaped $regex pattern with the i option over the title and,
when present, the description. -/
def serverQMatch (qs : String) (t : Task) : Bool :=
  regexSearchCI qs t.title ||
    (match t.description with
     | none => false
     | some d => regexSearchCI qs d)

/-- Evaluation of the MongoDB filter the GET handler builds: always scoped
to the session user id, then optionally by status, by a case-insensitive
regex over title or description, and by the from/to range conditions
(a comparison on a missing field does not match). -/
def taskMatchesFilter (uid : String) (query : GetQuery) (t : Task) : Bool :=
  decide (t.userId = uid) &&
  (match query.status with
   | none => true
   | some s => decide (t.status = s)) &&
  (match query.q with
   | none => true
   | some qs => serverQMatch qs t) &&
  (match query.from_ with
   | none => true
   | some f =>
     (match t.startAt with
      | some a => decide (f ≤ a)
      | none => false) ||
     (match t.dueAt with
      | some a => decide (f ≤ a)
      | none => false)) &&
  (match query.to_ with
   | none => true
   | some u =>
     (match t.startAt with
      | some a => decide (a ≤ u)
      | none => false) ||
     (match t.dueAt with
      | some a => decide (a ≤ u)
      | none => false))

/-- Body of an API response. -/
inductive RespBody where
  | tasks (ts : List Task)
  | task (t : Task)
  | errMsg (msg : String)
  | validation (msg : String) (details : List ZodIssue)
deriving DecidableEq

/-- An API response: HTTP status code and JSON body. -/
structure Response where
  status : Nat
  body : RespBody
deriving DecidableEq

/-- The GET /api/tasks handler: session check, query validation, filtered
and sorted find.  A validation error thrown by the query parse is caught by
the generic catch of this handler, which returns 500.  The second component
is the database state after the request, which GET never changes. -/
def GET (s : Option Session) (raw : RawQuery) (db : Db) : Response × Db :=
  match getSessionUserId s with
  | none => (⟨401, .errMsg "Unauthorized"⟩, db)
  | some uid =>
    match parseGetQuery raw with
    | .error _ => (⟨500, .errMsg "Internal server error"⟩, db)
    | .ok query =>
      (⟨200, .tasks (sortTasks (db.filter (taskMatchesFilter uid query)))⟩, db)

/-- Raw JSON body of POST /api/tasks before validation. -/
structure RawTaskBody where
  title : Option String
  description : Option String
  status : Option String
  priority : Option String
  tags : Option (List String)
  startAt : Option Int
  dueAt : Option Int
  percent : Option Int
  items : Option (List ChecklistItem)
deriving DecidableEq

/-- The validated creation payload. -/
structure TaskData where
  title : String
  description : Option String
  status : Status
  priority : Priority
  tags : List String
  startAt : Option Int
  dueAt : Option Int
  percent : Int
  items : List ChecklistItem
deriving DecidableEq

/-- The validated payload a passing parse produces, with the schema
defaults applied: status backlog, priority med, tags empty, percent 0,
items empty. -/
def defaultedData (b : RawTaskBody) : TaskData :=
  { title := b.title.getD ""
    description := b.description
    status := (b.status.bind parseStatus).getD .backlog
    priority := (b.priority.bind parsePriority).getD .med
    tags := b.tags.getD []
    startAt := b.startAt
    dueAt := b.dueAt
    percent := b.percent.getD 0
    items := b.items.getD [] }

/-- Modelled from the spec: the server-side taskSchema from
lib/validations.ts, which is not among the provided sources.  Per the spec
the created status defaults to backlog and percent lies in [0,100]; the
sibling dialog schema in src bounds the title to 3..120 characters and the
description to 2000, with priority defaulting to med, tags to the empty
list and percent to 0.  A failing field yields a structured per-field
issue. -/
def parseTaskBody (b : RawTaskBody) : Except (List ZodIssue) TaskData :=
  let titleIss : List ZodIssue :=
    match b.title with
    | none => [⟨"title", "Required"⟩]
    | some s =>
      if s.length < 3 then [⟨"title", "Title must be at least 3 characters"⟩]
      else if 120 < s.length then
        [⟨"title", "Title must be less than 120 characters"⟩]
      else []
  let descIss : List ZodIssue :=
    match b.description with
    | none => []
    | some d =>
      if 2000 < d.length then
        [⟨"description", "Description must be less than 2000 characters"⟩]
      else []
  let statusIss : List ZodIssue :=
    match b.status with
    | none => []
    | some s => match parseStatus s with
      | some _ => []
      | none => [⟨"status", "Invalid enum value"⟩]
  let priorityIss : List ZodIssue :=
    match b.priority with
    | none => []
    | some s => match parsePriority s with
      | some _ => []
      | none => [⟨"priority", "Invalid enum value"⟩]
  let percentIss : List ZodIssue :=
    match b.percent with
    | none => []
    | some p =>
      if p < 0 ∨ 100 < p then [⟨"percent", "Number out of range"⟩] else []
  let issues := titleIss ++ descIss ++ statusIss ++ priorityIss ++ percentIss
  if issues.isEmpty then .ok (defaultedData b)
  else .error issues

/-- The tasks of one user in one status column, the filter of the findOne
the POST handler issues and of the board columns. -/
def columnTasks (db : Db) (uid : String) (st : Status) : List Task :=
  db.filter (fun t => decide (t.userId = uid) && decide (t.status = st))

/-- The order values of one user and one status column. -/
def columnOrders (db : Db) (uid : String) (st : Status) : List Int :=
  (columnTasks db uid st).map (fun t => t.order)

/-- The order of the document Task.findOne(filter).sort({order: -1})
returns: the maximum order value, when a document exists. -/
def maxOrder : List Int → Option Int
  | [] => none
  | x :: xs =>
    match maxOrder xs with
    | none => some x
    | some m => some (max x m)

/-- The document id the store assigns to a newly created task. -/
def freshId (db : Db) : Nat :=
  db.foldl (fun m t => max m t.id) 0 + 1

/-- The order the POST handler assigns: lastTask.order + 1 when the
descending-order findOne yields a document, else 0. -/
def newOrder (db : Db) (uid : String) (st : Status) : Int :=
  match maxOrder (columnOrders db uid st) with
  | none => 0
  | some m => m + 1

/-- The task document Task.create stores: the validated data plus the
session user id, the computed order, and the assigned id. -/
def mkCreated (uid : String) (data : TaskData) (db : Db) : Task :=
  { id := freshId db, userId := uid, title := data.title
    description := data.description, status := data.status
    priority := data.priority, order := newOrder db uid data.status
    tags := data.tags, startAt := data.startAt, dueAt := data.dueAt
    items := data.items, percent := data.percent }

/-- The POST /api/tasks handler: session check, body validation, next-order
computation by a descending-order findOne, then creation.  The second
component is the database state after the request. -/
def POST (s : Option Session) (b : RawTaskBody) (db : Db) : Response × Db :=
  match getSessionUserId s with
  | none => (⟨401, .errMsg "Unauthorized"⟩, db)
  | some uid =>
    match parseTaskBody b with
    | .error issues => (⟨400, .validation "Validation error" issues⟩, db)
    | .ok data => (⟨201, .task (mkCreated uid data db)⟩, db ++ [mkCreated uid data db])

/-- Modelled from the spec: the DELETE /api/tasks/:id handler is not among
the provided sources; per the spec, deleting removes the task (no soft
delete) and task endpoints scope their queries to the session user id. -/
def deleteTask (uid : String) (tid : Nat) (db : Db) : Db :=
  db.filter (fun t => !(decide (t.id = tid) && decide (t.userId = uid)))

/-- Helper of the reorder model: assigns consecutive order values from a
given starting value. -/
def renumber : List Task → Int → List Task
  | [], _ => []
  | t :: rest, i => { t with order := i } :: renumber rest (i + 1)

/-- Modelled from the spec: the board reorder handler is not among the
provided sources; per the spec, reordering within a column renumbers the
order field contiguously from zero. -/
def reorderColumn (ts : List Task) : List Task :=
  renumber ts 0

/-- The contiguity invariant: a column holding n tasks carries exactly the
order values 0, 1, ..., n-1 (as a multiset). -/
def contiguousFromZero (l : List Int) : Prop :=
  l.Perm ((List.range l.length).map (fun n : Nat => (n : Int)))

instance instDecContiguous (l : List Int) : Decidable (contiguousFromZero l) := by
  unfold contiguousFromZero
  infer_instance

/-- Number of checked items of a checklist. -/
def checkedCount (items : List ChecklistItem) : Nat :=
  (items.filter (fun it => it.checked)).length

/-- JavaScript Math.round on the exact rational value: rounds half toward
positive infinity. -/
def jsRound (x : ℚ) : Int := Int.floor (x + 1 / 2)

/-- The progress the task dialog displays: with a non-empty checklist,
Math.round((checked / total) * 100); otherwise the watched percent value
with the or-zero defaulting. -/
def checklistProgress (items : List ChecklistItem) (watchedPercent : Option Int) : Int :=
  if 0 < items.length then
    jsRound (((checkedCount items : ℚ) / (items.length : ℚ)) * 100)
  else
    watchedPercent.getD 0

/-- The progress indicator the all-tasks list renders for a task: the
rounded checklist ratio when items exist, the stored percent when it is
positive, and no indicator otherwise. -/
def allTasksDisplayedProgress (t : Task) : Option Int :=
  if 0 < t.items.length then
    some (jsRound (((checkedCount t.items : ℚ) / (t.items.length : ℚ)) * 100))
  else if 0 < t.percent then some t.percent
  else none

/-- Clamping of a percent value into [0,100], as the claim words it. -/
def clamp100 (p : Int) : Int := max 0 (min p 100)

/-- Milliseconds per day. -/
def msPerDay : Int := 86400000

/-- The calendar day an instant falls on, as a day index. -/
def dayIndex (t : Int) : Int := Int.fdiv t msPerDay

/-- date-fns isSameDay: two instants fall on the same calendar day. -/
def sameDay (a b : Int) : Bool := decide (dayIndex a = dayIndex b)

/-- The timeline day filter getTasksForDate: with both timestamps the task
shows on every day cell between them (the cell instant compared against the
raw timestamps); with exactly one timestamp it shows on that calendar day;
with neither it never shows. -/
def getTasksForDate (tasks : List Task) (date : Int) : List Task :=
  tasks.filter (fun task =>
    match task.startAt, task.dueAt with
    | some s, some e => decide (s ≤ date) && decide (date ≤ e)
    | none, some e => sameDay e date
    | some s, none => sameDay s date
    | none, none => false)

/-- The day filter inside renderPersonalTimeline of the second timeline
component; same branching as getTasksForDate. -/
def personalDayTasks (tasks : List Task) (day : Int) : List Task :=
  tasks.filter (fun task =>
    if task.startAt.isNone && task.dueAt.isNone then false
    else
      match task.startAt, task.dueAt with
      | some s, some e => decide (s ≤ day) && decide (day ≤ e)
      | some s, none => sameDay s day
      | none, some e => sameDay e day
      | none, none => false)

/-- Stated from the claim: a task is placed in the cell of day d exactly
when it has both timestamps and startAt ≤ d ≤ dueAt, or it has exactly one
timestamp and that timestamp falls on the calendar day of d. -/
def claimCellMatch (t : Task) (d : Int) : Bool :=
  match t.startAt, t.dueAt with
  | some s, some e => decide (s ≤ d) && decide (d ≤ e)
  | some s, none => sameDay s d
  | none, some e => sameDay e d
  | none, none => false

/-- Conversion of a JavaScript number to a signed 32-bit integer, as the
bitwise operators do. -/
def toInt32 (n : Int) : Int := (n + 2 ^ 31) % 2 ^ 32 - 2 ^ 31

/-- One step of the user color hash: (a << 5) - a + code, converted to a
32-bit integer by the a & a expression. -/
def hashStep (a : Int) (code : Nat) : Int :=
  toInt32 (toInt32 (a * 32) - a + code)

/-- The user color hash: a left fold of hashStep over the UTF-16 code units
of the user id, starting from zero. -/
def userHash (units : List Nat) : Int :=
  units.foldl hashStep 0

/-- UTF-16 code units of one character, as charCodeAt enumerates them. -/
def charUtf16 (c : Char) : List Nat :=
  if c.toNat < 65536 then [c.toNat]
  else [55296 + (c.toNat - 65536) / 1024, 56320 + (c.toNat - 65536) % 1024]

/-- UTF-16 code units of a string. -/
def utf16Units (s : String) : List Nat :=
  (s.data.map charUtf16).flatten

/-- The fixed ten-entry color palette of getUserColor. -/
def colorPalette : List String :=
  ["bg-blue-500", "bg-green-500", "bg-purple-500", "bg-pink-500",
    "bg-indigo-500", "bg-yellow-500", "bg-red-500", "bg-teal-500",
    "bg-orange-500", "bg-cyan-500"]

/-- getUserColor from the timeline component: hashes the user id and picks
the palette entry at Math.abs(hash) % 10. -/
def getUserColor (userId : String) : String :=
  colorPalette.getD ((userHash (utf16Units userId)).natAbs % colorPalette.length) ""

/-- A session for the concrete examples. -/
def exSession : Session := ⟨some ⟨some "u1"⟩⟩

/-- The creation payload of the worked example in the spec. -/
def exBody : RawTaskBody :=
  { title := some "Write spec", description := none, status := some "backlog"
    priority := none, tags := none, startAt := none, dueAt := none
    percent := none, items := none }

/-- The validated form of the example payload. -/
def exData : TaskData :=
  { title := "Write spec", description := none, status := .backlog
    priority := .med, tags := [], startAt := none, dueAt := none
    percent := 0, items := [] }

/-- The task the example creation stores. -/
def exCreated : Task :=
  { id := 1, userId := "u1", title := "Write spec", description := none
    status := .backlog, priority := .med, order := 0, tags := []
    startAt := none, dueAt := none, items := [], percent := 0 }

/-- A task of a second user, for the scoping examples. -/
def exOther : Task :=
  { id := 2, userId := "u2", title := "Other task", description := none
    status := .backlog, priority := .low, order := 0, tags := []
    startAt := none, dueAt := none, items := [], percent := 0 }

/-- A two-user database for the scoping examples. -/
def exDb2 : Db := [exCreated, exOther]

/-- A second task of the first user in the same column, with order 1. -/
def exSecond : Task := { exCreated with id := 2, order := 1 }

/-- A one-user database whose backlog column holds orders 0 and 1. -/
def exPairDb : Db := [exCreated, exSecond]

/-- A raw query with a malformed status value. -/
def exBadQuery : RawQuery := ⟨some "bogus", none, none, none⟩

/-- A raw creation body with every field missing. -/
def exEmptyBody : RawTaskBody :=
  ⟨none, none, none, none, none, none, none, none, none⟩

/-- A task whose title has no literal dot, for the regex example. -/
def exDotTask : Task :=
  { id := 5, userId := "u1", title := "abc", description := none
    status := .backlog, priority := .med, order := 0, tags := []
    startAt := none, dueAt := none, items := [], percent := 0 }

/-- A raw query whose search text is a lone regex dot. -/
def exDotRaw : RawQuery := ⟨none, some ".", none, none⟩

/-- A four-item checklist with every item checked. -/
def exItems4 : List ChecklistItem :=
  [⟨"a", true⟩, ⟨"b", true⟩, ⟨"c", true⟩, ⟨"d", true⟩]

/-- A four-item checklist with three items checked. -/
def exItems3 : List ChecklistItem :=
  [⟨"a", true⟩, ⟨"b", true⟩, ⟨"c", true⟩, ⟨"d", false⟩]

/-- A task carrying the three-of-four checklist and an unrelated stored
percent. -/
def exTask3 : Task :=
  { id := 6, userId := "u1", title := "With list", description := none
    status := .backlog, priority := .med, order := 0, tags := []
    startAt := none, dueAt := none, items := exItems3, percent := 7 }

/-- A task with no checklist and a stored percent of 40. -/
def exPlain : Task :=
  { id := 7, userId := "u1", title := "Plain task", description := none
    status := .backlog, priority := .med, order := 0, tags := []
    startAt := none, dueAt := none, items := [], percent := 40 }

theorem getD_mem_of_lt (l : List String) (n : Nat) (d : String) (h : n < l.length) :
    l.getD n d ∈ l := by
  induction l generalizing n with
  | nil => simp at h
  | cons x xs ih =>
    cases n with
    | zero => simp [List.getD]
    | succ k =>
      have := ih k (by simpa using h)
      simp [List.getD] at this ⊢
      right
      simpa using this

/-- C6: a request to GET /api/tasks or POST /api/tasks without a valid
session (no session, no user, no user id, or an empty id) is answered with
HTTP status 401 and leaves the stored state unchanged. -/
theorem c6_unauthorized (s : Option Session) (raw : RawQuery) (b : RawTaskBody)
    (db : Db) (h : getSessionUserId s = none) :
    GET s raw db = (⟨401, RespBody.errMsg "Unauthorized"⟩, db) ∧
    POST s b db = (⟨401, RespBody.errMsg "Unauthorized"⟩, db) := by
  constructor
  · simp [GET, h]
  · simp [POST, h]

theorem c6_witness :
    GET none exBadQuery exDb2 = (⟨401, RespBody.errMsg "Unauthorized"⟩, exDb2) ∧
    POST none exBody exDb2 = (⟨401, RespBody.errMsg "Unauthorized"⟩, exDb2) :=
  c6_unauthorized none exBadQuery exBody exDb2 rfl

/-- C10: for every userId string, getUserColor returns an element of its
fixed ten-entry palette, the index Math.abs(hash) % 10 is in bounds, and
the function is deterministic. -/
theorem c10_getUserColor (userId : String) :
    getUserColor userId ∈ colorPalette ∧
    (userHash (utf16Units userId)).natAbs % 10 < 10 ∧
    (∀ v : String, userId = v → getUserColor userId = getUserColor v) := by
  refine ⟨?_, Nat.mod_lt _ (by norm_num), fun v hv => by rw [hv]⟩
  unfold getUserColor
  exact getD_mem_of_lt _ _ _ (Nat.mod_lt _ (by decide))

theorem c10_witness :
    getUserColor "" ∈ colorPalette ∧
    (userHash (utf16Units "")).natAbs % 10 < 10 ∧
    getUserColor "" = getUserColor "" :=
  ⟨(c10_getUserColor "").1, (c10_getUserColor "").2.1,
    (c10_getUserColor "").2.2 "" rfl⟩

/-- C9: in both timeline components, a task sits in the cell of day d
exactly when it has both timestamps and startAt ≤ d ≤ dueAt, or exactly one
timestamp falling on the calendar day of d; with neither timestamp it is
never shown. -/
theorem c9_day_cell (tasks : List Task) (t : Task) (d : Int) :
    (t ∈ getTasksForDate tasks d ↔ t ∈ tasks ∧ claimCellMatch t d = true) ∧
    (t ∈ personalDayTasks tasks d ↔ t ∈ tasks ∧ claimCellMatch t d = true) := by
  rcases hs : t.startAt with _ | sv <;> rcases he : t.dueAt with _ | ev <;>
    simp [getTasksForDate, personalDayTasks, claimCellMatch, List.mem_filter, hs, he]

/-- C2: with a non-empty checklist the displayed progress is
round(100 × checked / total), independent of the stored percent, both in
the task dialog and in the all-tasks list. -/
theorem c2_checklist_progress (items : List ChecklistItem) (p : Option Int)
    (t : Task) (hne : items ≠ []) (ht : t.items = items) :
    checklistProgress items p
      = jsRound (100 * (checkedCount items : ℚ) / (items.length : ℚ)) ∧
    (∀ p2 : Option Int, checklistProgress items p2 = checklistProgress items p) ∧
    allTasksDisplayedProgress t
      = some (jsRound (100 * (checkedCount items : ℚ) / (items.length : ℚ))) := by
  have hlen : 0 < items.length := List.length_pos.mpr hne
  have harg : ((checkedCount items : ℚ) / (items.length : ℚ)) * 100
      = 100 * (checkedCount items : ℚ) / (items.length : ℚ) := by ring
  refine ⟨?_, ?_, ?_⟩
  · rw [checklistProgress, if_pos hlen, harg]
  · intro p2
    rw [checklistProgress, if_pos hlen, checklistProgress, if_pos hlen]
  · rw [allTasksDisplayedProgress, ht, if_pos hlen, harg]

theorem c2_witness :
    checklistProgress exItems4 (some 7) = 100 ∧
    checklistProgress exItems3 (some 7) = 75 ∧
    checklistProgress exItems3 (some 7)
      = jsRound (100 * (checkedCount exItems3 : ℚ) / (exItems3.length : ℚ)) ∧
    (∀ p2 : Option Int, checklistProgress exItems3 p2 = checklistProgress exItems3 (some 7)) ∧
    allTasksDisplayedProgress exTask3 = some 75 := by
  have h := c2_checklist_progress exItems3 (some 7) exTask3 (by decide) rfl
  refine ⟨?_, ?_, h.1, h.2.1, ?_⟩
  · norm_num [checklistProgress, checkedCount, jsRound, exItems4, List.filter]
  · norm_num [checklistProgress, checkedCount, jsRound, exItems3, List.filter]
  · norm_num [allTasksDisplayedProgress, checkedCount, jsRound, exTask3, exItems3,
      List.filter]

/-- C3: with no checklist the displayed progress is the stored percent
clamped into [0,100]; the dialog shows it directly, the all-tasks list
shows it when positive and renders no indicator at zero. -/
theorem c3_percent_progress (t : Task) (h0 : t.items = [])
    (h1 : 0 ≤ t.percent) (h2 : t.percent ≤ 100) :
    checklistProgress t.items (some t.percent) = clamp100 t.percent ∧
    (0 < t.percent → allTasksDisplayedProgress t = some (clamp100 t.percent)) ∧
    (t.percent = 0 → allTasksDisplayedProgress t = none) := by
  have hcl : clamp100 t.percent = t.percent := by
    unfold clamp100; omega
  have hlen : ¬ 0 < t.items.length := by rw [h0]; simp
  refine ⟨?_, ?_, ?_⟩
  · rw [checklistProgress, if_neg hlen, hcl]; rfl
  · intro hp
    rw [allTasksDisplayedProgress, if_neg hlen, if_pos hp, hcl]
  · intro hp
    rw [allTasksDisplayedProgress, if_neg hlen, if_neg (by omega)]

theorem c3_witness :
    checklistProgress exPlain.items (some exPlain.percent) = clamp100 exPlain.percent ∧
    allTasksDisplayedProgress exPlain = some (clamp100 exPlain.percent) :=
  have h := c3_percent_progress exPlain rfl (by decide) (by decide)
  ⟨h.1, h.2.1 (by decide)⟩

theorem maxOrder_eq_none {l : List Int} : maxOrder l = none ↔ l = [] := by
  cases l with
  | nil => simp [maxOrder]
  | cons x xs =>
    cases h : maxOrder xs <;> simp [maxOrder, h]

theorem maxOrder_mem {l : List Int} : ∀ {m : Int}, maxOrder l = some m → m ∈ l := by
  induction l with
  | nil => intro m h; simp [maxOrder] at h
  | cons x xs ih =>
    intro m h
    rw [maxOrder] at h
    cases hx : maxOrder xs with
    | none =>
      rw [hx] at h
      injection h with h
      simp [h]
    | some k =>
      rw [hx] at h
      injection h with h
      rcases max_choice x k with hc | hc <;> rw [← h, hc]
      · exact List.mem_cons_self x xs
      · exact List.mem_cons_of_mem x (ih hx)

theorem maxOrder_le {l : List Int} : ∀ {m : Int}, maxOrder l = some m →
    ∀ x ∈ l, x ≤ m := by
  induction l with
  | nil => intro m _ x hx; simp at hx
  | cons a xs ih =>
    intro m h x hx
    rw [maxOrder] at h
    cases hax : maxOrder xs with
    | none =>
      have hnil : xs = [] := maxOrder_eq_none.mp hax
      rw [hax] at h
      injection h with h
      subst hnil
      simp at hx
      omega
    | some k =>
      rw [hax] at h
      injection h with h
      rcases List.mem_cons.mp hx with rfl | hxs
      · rw [← h]; exact le_max_left _ _
      · calc x ≤ k := ih hax x hxs
          _ ≤ m := by rw [← h]; exact le_max_right _ _

theorem maxOrder_eq_some {l : List Int} {m : Int} (hm : m ∈ l)
    (hub : ∀ x ∈ l, x ≤ m) : maxOrder l = some m := by
  induction l with
  | nil => simp at hm
  | cons x xs ih =>
    rw [maxOrder]
    cases hx : maxOrder xs with
    | none =>
      have hnil : xs = [] := maxOrder_eq_none.mp hx
      subst hnil
      simp at hm
      simp [hm]
    | some k =>
      have hkmem : k ∈ xs := maxOrder_mem hx
      have hxle : x ≤ m := hub x (List.mem_cons_self x xs)
      have hkle : k ≤ m := hub k (List.mem_cons_of_mem x hkmem)
      rcases List.mem_cons.mp hm with rfl | hmxs
      · simp [max_eq_left hkle]
      · have hxs : maxOrder xs = some m :=
          ih hmxs (fun y hy => hub y (List.mem_cons_of_mem x hy))
        rw [hx] at hxs
        injection hxs with hkm
        subst hkm
        simp [max_eq_right hxle]

theorem POST_ok (s : Option Session) (uid : String) (b : RawTaskBody)
    (data : TaskData) (db : Db)
    (hs : getSessionUserId s = some uid) (hb : parseTaskBody b = .ok data) :
    POST s b db
      = (⟨201, RespBody.task (mkCreated uid data db)⟩, db ++ [mkCreated uid data db]) := by
  unfold POST
  rw [hs, hb]

theorem newOrder_of_nil {db : Db} {uid : String} {st : Status}
    (h : columnOrders db uid st = []) : newOrder db uid st = 0 := by
  unfold newOrder
  rw [h]
  rfl

theorem newOrder_of_max {db : Db} {uid : String} {st : Status} {m : Int}
    (hm : m ∈ columnOrders db uid st)
    (hub : ∀ x ∈ columnOrders db uid st, x ≤ m) :
    newOrder db uid st = m + 1 := by
  unfold newOrder
  rw [maxOrder_eq_some hm hub]

/-- C1: a valid authenticated creation stores a task owned by the session
user whose status defaults to backlog when omitted, whose percent and tags
default to 0 and empty, and whose order is one greater than the maximum
order of that user in that status column, or 0 when the column is empty. -/
theorem c1_create (s : Option Session) (uid : String) (b : RawTaskBody)
    (data : TaskData) (db : Db)
    (hs : getSessionUserId s = some uid) (hb : parseTaskBody b = .ok data) :
    ∃ t : Task,
      POST s b db = (⟨201, RespBody.task t⟩, db ++ [t]) ∧
      t.userId = uid ∧ t.status = data.status ∧
      (b.status = none → t.status = Status.backlog) ∧
      (b.percent = none → t.percent = 0) ∧
      (b.tags = none → t.tags = []) ∧
      (columnOrders db uid data.status = [] → t.order = 0) ∧
      (∀ m : Int, m ∈ columnOrders db uid data.status →
        (∀ x ∈ columnOrders db uid data.status, x ≤ m) → t.order = m + 1) := by
  have hdata : data = defaultedData b := by
    simp only [parseTaskBody] at hb
    split at hb
    · injection hb with hb
      exact hb.symm
    · exact absurd hb (by simp)
  refine ⟨mkCreated uid data db, POST_ok s uid b data db hs hb, rfl, rfl,
    ?_, ?_, ?_, ?_, ?_⟩
  · intro hnone
    show data.status = Status.backlog
    rw [hdata]
    simp [defaultedData, hnone]
  · intro hnone
    show data.percent = 0
    rw [hdata]
    simp [defaultedData, hnone]
  · intro hnone
    show data.tags = ([] : List String)
    rw [hdata]
    simp [defaultedData, hnone]
  · intro hco
    show newOrder db uid data.status = 0
    exact newOrder_of_nil hco
  · intro m hm hub
    show newOrder db uid data.status = m + 1
    exact newOrder_of_max hm hub

theorem c1_witness :
    parseTaskBody exBody = Except.ok exData ∧
    POST (some exSession) exBody [] = (⟨201, RespBody.task exCreated⟩, [exCreated]) ∧
    (GET (some exSession) (buildRawQuery []) [exCreated]).1
      = ⟨200, RespBody.tasks [exCreated]⟩ ∧
    exCreated.order = 0 ∧ exCreated.percent = 0 ∧ exCreated.tags = [] := by
  refine ⟨rfl, by decide, by decide, ?_, by decide, by decide⟩
  obtain ⟨t, hpost, hu, hstat, hdef, hp, htg, hord0, hord1⟩ :=
    c1_create (some exSession) "u1" exBody exData [] rfl rfl
  have hpair := hpost.symm.trans
    (by decide : POST (some exSession) exBody []
      = (⟨201, RespBody.task exCreated⟩, [exCreated]))
  injection hpair with h1 h2
  simp at h2
  rw [← h2]
  exact hord0 (by decide)

/-- C5 counterexample: with a valid session, a malformed query parameter on
GET /api/tasks is answered with status 500 by the generic catch, not with
the claimed 400. -/
theorem c5_counterexample :
    (GET (some exSession) exBadQuery []).1.status = 500 ∧
    ¬ (GET (some exSession) exBadQuery []).1.status = 400 := by
  decide

/-- C5 amended: with a valid session, a validation failure on POST
/api/tasks returns 400 with the structured per-field issues, while a
validation failure on GET /api/tasks is caught by the generic handler and
returns 500 with a generic message. -/
theorem c5_amended (s : Option Session) (uid : String) (db : Db)
    (raw : RawQuery) (issues : List ZodIssue) (b : RawTaskBody)
    (issues2 : List ZodIssue) (hs : getSessionUserId s = some uid) :
    (parseGetQuery raw = .error issues →
      GET s raw db = (⟨500, RespBody.errMsg "Internal server error"⟩, db)) ∧
    (parseTaskBody b = .error issues2 →
      POST s b db = (⟨400, RespBody.validation "Validation error" issues2⟩, db)) := by
  constructor
  · intro h
    simp [GET, hs, h]
  · intro h
    simp [POST, hs, h]

theorem mem_sortTasks {t : Task} {l : List Task} : t ∈ sortTasks l ↔ t ∈ l := by
  unfold sortTasks
  exact (List.perm_insertionSort _ l).mem_iff

theorem filter_sub_filter (M D : Task → Bool) (db : Db)
    (h : ∀ t : Task, M t = true → D t = true) :
    (db.filter D).filter M = db.filter M := by
  induction db with
  | nil => rfl
  | cons t ts ih =>
    by_cases hM : M t = true
    · have hD : D t = true := h t hM
      simp [List.filter_cons, hD, hM, ih]
    · cases hD : D t <;> simp [List.filter_cons, hD, hM, ih]

theorem filter_deleteTask (M : Task → Bool) (other : String) (tid : Nat)
    (db : Db) (h : ∀ t : Task, M t = true → ¬ t.userId = other) :
    (deleteTask other tid db).filter M = db.filter M := by
  unfold deleteTask
  apply filter_sub_filter
  intro t hM
  have hne := h t hM
  simp [hne]

/-- C4: every task GET /api/tasks returns belongs to the session user, for
any parameter combination including unrecognized ones such as scope=all;
hence deleting a task of another user never changes the result list. -/
theorem c4_user_scoping (s : Option Session) (uid : String)
    (params : List (String × String)) (db : Db) (query : GetQuery)
    (hs : getSessionUserId s = some uid)
    (hq : parseGetQuery (buildRawQuery params) = .ok query) :
    (∃ ts : List Task,
      (GET s (buildRawQuery params) db).1 = ⟨200, RespBody.tasks ts⟩ ∧
      ∀ t ∈ ts, t.userId = uid) ∧
    (∀ (other : String) (tid : Nat), ¬ other = uid →
      (GET s (buildRawQuery params) (deleteTask other tid db)).1
        = (GET s (buildRawQuery params) db).1) := by
  have hfil : ∀ t : Task, taskMatchesFilter uid query t = true → t.userId = uid := by
    intro t ht
    unfold taskMatchesFilter at ht
    simp only [Bool.and_eq_true, decide_eq_true_eq] at ht
    exact ht.1.1.1.1
  constructor
  · refine ⟨sortTasks (db.filter (taskMatchesFilter uid query)), ?_, ?_⟩
    · unfold GET
      rw [hs, hq]
    · intro t ht
      exact hfil t (List.mem_filter.mp (mem_sortTasks.mp ht)).2
  · intro other tid hne
    have key : (deleteTask other tid db).filter (taskMatchesFilter uid query)
        = db.filter (taskMatchesFilter uid query) := by
      apply filter_deleteTask
      intro t hM hcontra
      exact hne (by rw [← hcontra, hfil t hM])
    simp [GET, hs, hq, key]

theorem c4_witness :
    (GET (some exSession) (buildRawQuery [("scope", "all")]) exDb2).1
      = ⟨200, RespBody.tasks [exCreated]⟩ ∧
    (GET (some exSession) (buildRawQuery [("scope", "all")])
        (deleteTask "u2" 2 exDb2)).1
      = (GET (some exSession) (buildRawQuery [("scope", "all")]) exDb2).1 := by
  constructor
  · decide
  · exact (c4_user_scoping (some exSession) "u1" [("scope", "all")] exDb2
      ⟨none, none, none, none⟩ rfl rfl).2 "u2" 2 (by decide)

theorem searchSub_nil_pat (eq : Char → Char → Bool) (text : List Char) :
    searchSub eq [] text = true := by
  cases text <;> simp [searchSub, matchAt]

theorem matchAt_ci (pat : List Char) (h : ∀ c ∈ pat, ¬ c = '.') :
    ∀ text : List Char, matchAt regexCharCI pat text
      = matchAt (fun a b => a == b) (pat.map lowerChar) (text.map lowerChar) := by
  induction pat with
  | nil => intro text; cases text <;> simp [matchAt]
  | cons p ps ih =>
    intro text
    cases text with
    | nil => simp [matchAt]
    | cons c cs =>
      have hp : (p == '.') = false := by
        simp [h p (List.mem_cons_self p ps)]
      have hih := ih (fun x hx => h x (List.mem_cons_of_mem p hx)) cs
      simp [matchAt, regexCharCI, hp, hih]

theorem searchSub_ci (pat : List Char) (h : ∀ c ∈ pat, ¬ c = '.') :
    ∀ text : List Char, searchSub regexCharCI pat text
      = searchSub (fun a b => a == b) (pat.map lowerChar) (text.map lowerChar) := by
  intro text
  induction text with
  | nil => simp [searchSub, matchAt_ci pat h []]
  | cons c cs ih => simp [searchSub, matchAt_ci pat h (c :: cs), ih]

/-- C7 counterexample: with the one-character query consisting of a regex
dot, the server-side filter matches a task titled abc, and the GET endpoint
returns it, although the query does not occur as a literal substring of the
title or description. -/
theorem c7_counterexample :
    serverQMatch "." exDotTask = true ∧
    claimSubstrMatch "." exDotTask = false ∧
    (GET (some exSession) exDotRaw [exDotTask]).1
      = ⟨200, RespBody.tasks [exDotTask]⟩ := by
  decide

/-- C7 amended: the client-side all-tasks filter matches exactly when the
query occurs case-insensitively as a literal substring of the title or
description; the server-side GET q parameter interprets the query as a
case-insensitive regex, which agrees with literal substring matching
whenever the query contains no regex metacharacter. -/
theorem c7_amended (qs : String) (t : Task) :
    clientTaskMatches qs t = claimSubstrMatch qs t ∧
    ((∀ c ∈ qs.data, c ∉ regexSpecialChars) →
      serverQMatch qs t = claimSubstrMatch qs t) := by
  constructor
  · unfold clientTaskMatches claimSubstrMatch
    cases hd : t.description with
    | none => rfl
    | some d =>
      by_cases hde : d = ""
      · subst hde
        obtain ⟨ql⟩ := qs
        cases ql with
        | nil =>
          have h1 : strIncludes (lowerStr t.title) (lowerStr ⟨[]⟩) = true := by
            unfold strIncludes lowerStr
            exact searchSub_nil_pat _ _
          simp [h1]
        | cons c cl =>
          simp [strIncludes, lowerStr, searchSub, matchAt]
      · have hdb : (d == "") = false := by simp [hde]
        simp [hdb]
  · intro h
    have hdot : ∀ c ∈ qs.data, ¬ c = '.' := by
      intro c hc he
      exact h c hc (by rw [he]; decide)
    unfold serverQMatch claimSubstrMatch regexSearchCI strIncludes lowerStr
    cases hdd : t.description with
    | none => simp [searchSub_ci qs.data hdot]
    | some d => simp [searchSub_ci qs.data hdot]

theorem c7_witness :
    clientTaskMatches "spec" exCreated = claimSubstrMatch "spec" exCreated ∧
    serverQMatch "spec" exCreated = claimSubstrMatch "spec" exCreated ∧
    claimSubstrMatch "spec" exCreated = true :=
  ⟨(c7_amended "spec" exCreated).1,
    (c7_amended "spec" exCreated).2 (by decide), by decide⟩

theorem c5_witness :
    GET (some exSession) exBadQuery []
      = (⟨500, RespBody.errMsg "Internal server error"⟩, []) ∧
    POST (some exSession) exEmptyBody []
      = (⟨400, RespBody.validation "Validation error" [⟨"title", "Required"⟩]⟩, []) :=
  have h := c5_amended (some exSession) "u1" [] exBadQuery
    [⟨"status", "Invalid enum value"⟩] exEmptyBody [⟨"title", "Required"⟩] rfl
  ⟨h.1 rfl, h.2 rfl⟩

theorem columnOrders_append (db1 db2 : Db) (u : String) (st : Status) :
    columnOrders (db1 ++ db2) u st = columnOrders db1 u st ++ columnOrders db2 u st := by
  unfold columnOrders columnTasks
  rw [List.filter_append, List.map_append]

theorem renumber_orders (ts : List Task) : ∀ i : Int,
    (renumber ts i).map (fun t => t.order)
      = (List.range ts.length).map (fun n : Nat => i + (n : Int)) := by
  induction ts with
  | nil => intro i; simp [renumber]
  | cons t rest ih =>
    intro i
    calc ({ t with order := i } :: renumber rest (i + 1)).map (fun x => x.order)
        = i :: (renumber rest (i + 1)).map (fun x => x.order) := rfl
      _ = i :: (List.range rest.length).map (fun n : Nat => (i + 1) + (n : Int)) := by
          rw [ih (i + 1)]
      _ = (List.range (t :: rest).length).map (fun n : Nat => i + (n : Int)) := by
          rw [List.length_cons, List.range_succ_eq_map, List.map_cons, List.map_map]
          have hfe : (fun n : Nat => (i + 1) + (n : Int))
              = ((fun n : Nat => i + (n : Int)) ∘ Nat.succ) := by
            funext n
            simp [Function.comp]
            ring
          rw [hfe]
          congr 1
          simp

/-- C8 counterexample: a database whose backlog column carries the
contiguous orders 0 and 1 loses contiguity after deleting the order-0
task, because deletion does not renumber the remaining tasks; so the
invariant is not preserved by every operation. -/
theorem c8_counterexample :
    contiguousFromZero (columnOrders exPairDb "u1" Status.backlog) ∧
    ¬ contiguousFromZero
        (columnOrders (deleteTask "u1" 1 exPairDb) "u1" Status.backlog) := by
  decide

/-- C8 amended: the orders of a user and status column stay the contiguous
set 0..n-1 under task creation, which appends at max plus one or 0, and
reordering within a column re-establishes the set by renumbering from
zero; deletion, which merely removes the task, does not preserve it. -/
theorem c8_amended (s : Option Session) (uid : String) (b : RawTaskBody)
    (data : TaskData) (db : Db) (u : String) (st : Status)
    (hs : getSessionUserId s = some uid) (hb : parseTaskBody b = .ok data)
    (hcont : contiguousFromZero (columnOrders db u st)) :
    contiguousFromZero (columnOrders (POST s b db).2 u st) ∧
    (∀ ts : List Task,
      (reorderColumn ts).map (fun t => t.order)
        = (List.range ts.length).map (fun n : Nat => (n : Int)) ∧
      contiguousFromZero ((reorderColumn ts).map (fun t => t.order))) := by
  constructor
  · rw [POST_ok s uid b data db hs hb]
    show contiguousFromZero (columnOrders (db ++ [mkCreated uid data db]) u st)
    rw [columnOrders_append]
    by_cases hmatch : (mkCreated uid data db).userId = u ∧ (mkCreated uid data db).status = st
    · obtain ⟨h1, h2⟩ := hmatch
      have hu : uid = u := h1
      have hst : data.status = st := h2
      subst hu
      subst hst
      have hcol : columnOrders [mkCreated uid data db] uid data.status
          = [(mkCreated uid data db).order] := by
        unfold columnOrders columnTasks
        simp [mkCreated]
      rw [hcol]
      rcases hmx : maxOrder (columnOrders db uid data.status) with _ | m
      · have hnil : columnOrders db uid data.status = [] := maxOrder_eq_none.mp hmx
        have hord : (mkCreated uid data db).order = 0 := newOrder_of_nil hnil
        rw [hnil, hord]
        decide
      · have hord : (mkCreated uid data db).order = m + 1 := by
          show newOrder db uid data.status = m + 1
          unfold newOrder
          rw [hmx]
        rw [hord]
        have hmem := maxOrder_mem hmx
        have hub := maxOrder_le hmx
        unfold contiguousFromZero at hcont ⊢
        have hne : columnOrders db uid data.status ≠ [] := List.ne_nil_of_mem hmem
        have hnpos : 0 < (columnOrders db uid data.status).length :=
          List.length_pos.mpr hne
        have hm_in : m ∈ (List.range (columnOrders db uid data.status).length).map
            (fun k : Nat => (k : Int)) := hcont.mem_iff.mp hmem
        have hlast_mem : (((columnOrders db uid data.status).length - 1 : Nat) : Int)
            ∈ columnOrders db uid data.status := by
          apply hcont.mem_iff.mpr
          simp only [List.mem_map, List.mem_range]
          exact ⟨(columnOrders db uid data.status).length - 1, by omega, rfl⟩
        have h1 : (((columnOrders db uid data.status).length - 1 : Nat) : Int) ≤ m :=
          hub _ hlast_mem
        obtain ⟨j, hjn, hjm⟩ : ∃ j : Nat,
            j < (columnOrders db uid data.status).length ∧ (j : Int) = m := by
          simpa using hm_in
        have hm_eq : m = (((columnOrders db uid data.status).length - 1 : Nat) : Int) := by
          omega
        have hfin : m + 1 = ((columnOrders db uid data.status).length : Int) := by
          omega
        have hlen : (columnOrders db uid data.status ++ [m + 1]).length
            = (columnOrders db uid data.status).length + 1 := by
          simp
        rw [hlen, List.range_succ, List.map_append]
        refine hcont.append ?_
        rw [hfin]
        exact List.Perm.refl _
    · have hcol : columnOrders [mkCreated uid data db] u st = [] := by
        unfold columnOrders columnTasks
        have : (decide ((mkCreated uid data db).userId = u)
            && decide ((mkCreated uid data db).status = st)) = false := by
          rcases not_and_or.mp hmatch with hcase | hcase <;> simp [hcase]
        simp [List.filter_cons, this]
      rw [hcol, List.append_nil]
      exact hcont
  · intro ts
    have h1 : (reorderColumn ts).map (fun t => t.order)
        = (List.range ts.length).map (fun n : Nat => (n : Int)) := by
      unfold reorderColumn
      rw [renumber_orders ts 0]
      have hfe : (fun n : Nat => (0 : Int) + (n : Int)) = (fun n : Nat => (n : Int)) := by
        funext n
        ring
      rw [hfe]
    refine ⟨h1, ?_⟩
    unfold contiguousFromZero
    rw [h1]
    have hlen : ((List.range ts.length).map (fun n : Nat => (n : Int))).length
        = ts.length := by simp
    rw [hlen]

theorem c8_witness :
    contiguousFromZero
      (columnOrders (POST (some exSession) exBody []).2 "u1" Status.backlog) ∧
    ((reorderColumn exPairDb).map (fun t => t.order)
        = (List.range exPairDb.length).map (fun n : Nat => (n : Int)) ∧
      contiguousFromZero ((reorderColumn exPairDb).map (fun t => t.order))) :=
  have h := c8_amended (some exSession) "u1" exBody exData [] "u1" Status.backlog
    rfl rfl (by decide)
  ⟨h.1, h.2 exPairDb⟩

end Todu
